import Mathlib

/-!
Verification of the VKNP tensor-compute runtime against its design
specification.  Each Rust component relevant to the checked claims is
shallowly embedded as an executable Lean definition:

* `core-types`: `DataType`, `BufferId`, `ViewDescriptor` (`src/VKNP/core-types`);
* `memory`: `BufferPool` and `MemoryManager` (`src/VKNP/memory`);
* `tensor`: `compute_strides` and tensor construction (`src/VKNP/tensor`);
* `ops`: `OpSignature`, `OpError`, `GpuTask`, `PreparedOp`, `OpRegistry`
  and the builtin `AddOp` (`src/VKNP/ops`);
* `execution`: `KernelManager` and `ExecutionEngine` (`src/VKNP/execution`).

Device buffers are modelled by their byte contents; `Arc` identity of
compiled pipelines/layouts is modelled by minting a fresh numeric object id
per device-object creation.  Rust panics (`unwrap`/`expect` on `None`) are
modelled by an explicit `panicked` outcome carrying the message, with the
state at the panic point, so leak behaviour on panic paths is observable.
-/

namespace VKNP

/-- Supported element types (`core-types/src/generated_data_types.rs`). -/
inductive DataType
  | F32
  | I32
  | U32
deriving DecidableEq, Repr

/-- Size of one element, in bytes (`DataType::size_in_bytes`). -/
def DataType.size_in_bytes : DataType → Nat
  | .F32 => 4
  | .I32 => 4
  | .U32 => 4

/-- Opaque buffer identifier wrapping a `u64` (`core-types/src/lib.rs`). -/
structure BufferId where
  id : Nat
deriving DecidableEq, Repr

/-- `MAX_DIMS` from `core-types/src/lib.rs`. -/
def MAX_DIMS : Nat := 8

/-- The `u64` modulus: pool ids live in `u64` and the counter uses
`wrapping_add`, so id arithmetic is taken mod `2^64`. -/
def U64MOD : Nat := 2 ^ 64

/-- A device buffer, modelled by its byte contents (`AbstractBuffer` in
`core/src/types.rs`; the wrapped `wgpu::Buffer` is represented by the bytes
it stores, and `size()` by their count). -/
structure AbstractBuffer where
  bytes : List Nat
deriving DecidableEq, Repr

/-- `AbstractBuffer::size`. -/
def AbstractBuffer.size (b : AbstractBuffer) : Nat := b.bytes.length

/-- `GpuContext::create_buffer`: a fresh buffer of `size` bytes
(WebGPU zero-initialises new buffers). -/
def createBuffer (size : Nat) : AbstractBuffer := ⟨List.replicate size 0⟩

/-- Device-side `GpuContext::copy_buffer_to_buffer` of `n` bytes from the
start of `src` over the start of `dst`. -/
def copyBytes (src dst : List Nat) (n : Nat) : List Nat :=
  src.take n ++ dst.drop n

/-! ### Association-list maps

The Rust pools and caches use `HashMap`; we model them as association
lists without duplicate keys (every insert first erases the key). -/

/-- Lookup in an association list (`HashMap::get`). -/
def alookup {κ α : Type} [DecidableEq κ] : List (κ × α) → κ → Option α
  | [], _ => none
  | (k2, v) :: rest, k => if k2 = k then some v else alookup rest k

/-- Remove a key (`HashMap::remove`). -/
def aerase {κ α : Type} [DecidableEq κ] : List (κ × α) → κ → List (κ × α)
  | [], _ => []
  | (k2, v) :: rest, k =>
    if k2 = k then aerase rest k else (k2, v) :: aerase rest k

/-- Insert/overwrite a binding (`HashMap::insert`). -/
def ainsert {κ α : Type} [DecidableEq κ] (m : List (κ × α)) (k : κ) (v : α) :
    List (κ × α) :=
  (k, v) :: aerase m k

theorem alookup_ainsert_self {κ α : Type} [DecidableEq κ]
    (m : List (κ × α)) (k : κ) (v : α) : alookup (ainsert m k v) k = some v := by
  simp [ainsert, alookup]

theorem alookup_aerase_self {κ α : Type} [DecidableEq κ]
    (m : List (κ × α)) (k : κ) : alookup (aerase m k) k = none := by
  induction m with
  | nil => simp [aerase, alookup]
  | cons p rest ih =>
    obtain ⟨k2, v⟩ := p
    by_cases h : k2 = k
    · simpa [aerase, h] using ih
    · simp [aerase, alookup, h, ih]

theorem alookup_aerase_of_ne {κ α : Type} [DecidableEq κ]
    (m : List (κ × α)) (k j : κ) (h : k ≠ j) :
    alookup (aerase m k) j = alookup m j := by
  induction m with
  | nil => rfl
  | cons p rest ih =>
    obtain ⟨k2, v⟩ := p
    by_cases h2 : k2 = k
    · subst h2
      simp [aerase, alookup, h, ih]
    · by_cases h3 : k2 = j <;>
        simp [aerase, alookup, h2, h3, ih, Ne.symm h]

theorem alookup_ainsert_of_ne {κ α : Type} [DecidableEq κ]
    (m : List (κ × α)) (k j : κ) (v : α) (h : k ≠ j) :
    alookup (ainsert m k v) j = alookup m j := by
  simp [ainsert, alookup, h, alookup_aerase_of_ne m k j h]

/-! ### Buffer pool (`memory/src/pool.rs`) -/

/-- `BufferEntry`: stored buffer plus meta-info. -/
structure BufferEntry where
  buffer : AbstractBuffer
  size : Nat
  ref_count : Nat
deriving DecidableEq, Repr

/-- `BufferPool`: id counter plus id→entry map.  The `GpuContext` and
`BufferKind` fields play no role in the pool's bookkeeping semantics and
are omitted from the model. -/
structure BufferPool where
  next_id : Nat
  entries : List (Nat × BufferEntry)
deriving DecidableEq, Repr

/-- `BufferPool::new`. -/
def BufferPool.new : BufferPool := ⟨0, []⟩

/-- `BufferPool::get_buffer`: always mints a fresh buffer and a fresh id;
`next_id` advances with `wrapping_add(1)` on `u64`.  The Rust return type
is `Result<BufferId, Error>` but the body always returns `Ok`, so the model
returns the id directly. -/
def BufferPool.get_buffer (p : BufferPool) (size_bytes : Nat) :
    BufferId × BufferPool :=
  (⟨p.next_id⟩,
   { next_id := (p.next_id + 1) % U64MOD,
     entries := ainsert p.entries p.next_id
       ⟨createBuffer size_bytes, size_bytes, 1⟩ })

/-- `BufferPool::get`. -/
def BufferPool.get (p : BufferPool) (id : BufferId) : Option AbstractBuffer :=
  (alookup p.entries id.id).map (·.buffer)

/-- `BufferPool::inc_ref`. -/
def BufferPool.inc_ref (p : BufferPool) (id : BufferId) :
    Except String Unit × BufferPool :=
  match alookup p.entries id.id with
  | some entry =>
    let updated := { entry with ref_count := entry.ref_count + 1 }
    (.ok (), { p with entries := ainsert p.entries id.id updated })
  | none => (.error "Buffer ID not found", p)

/-- `BufferPool::dec_ref`, including the defensive `ref_count == 0` branch
of the source (which removes the entry and reports an error). -/
def BufferPool.dec_ref (p : BufferPool) (id : BufferId) :
    Except String Unit × BufferPool :=
  match alookup p.entries id.id with
  | some entry =>
    if entry.ref_count = 0 then
      (.error "Buffer ID already has zero reference count",
       { p with entries := aerase p.entries id.id })
    else
      let rc := entry.ref_count - 1
      if rc = 0 then
        (.ok (), { p with entries := aerase p.entries id.id })
      else
        let updated := { entry with ref_count := rc }
        (.ok (), { p with entries := ainsert p.entries id.id updated })
  | none => (.error "Buffer ID not found", p)

/-- `BufferPool::get_buffer_size`. -/
def BufferPool.get_buffer_size (p : BufferPool) (id : BufferId) : Option Nat :=
  (alookup p.entries id.id).map (·.size)

/-- `BufferPool::release_buffer`: unconditional removal. -/
def BufferPool.release_buffer (p : BufferPool) (id : BufferId) : BufferPool :=
  { p with entries := aerase p.entries id.id }

/-- In-place device mutation of the pooled buffer's contents, as performed
through the reference returned by `BufferPool::get` (used by
`GpuContext::write_buffer` / `copy_buffer_to_buffer`).  A missing id leaves
the pool unchanged (the callers `unwrap` the reference first). -/
def BufferPool.write_through (p : BufferPool) (id : BufferId)
    (bytes : List Nat) : BufferPool :=
  match alookup p.entries id.id with
  | some entry =>
    { p with entries := ainsert p.entries id.id ({ entry with buffer := ⟨bytes⟩ }) }
  | none => p

/-! ### Row-major strides (`tensor/src/utils.rs`) -/

/-- `compute_strides`: row-major strides.  The source fills a vector from
the back (`strides[n-1] = 1`, then `strides[i] = strides[i+1] *
shape[i+1]` downwards); the recursion below builds the same list from the
right. -/
def compute_strides : List Nat → List Nat
  | [] => []
  | [_] => [1]
  | _ :: d2 :: rest =>
    let s := compute_strides (d2 :: rest)
    (s.headD 1 * d2) :: s

/-! ### Memory manager (`memory/src/lib.rs`) -/

/-- Outcome of a Rust call that can panic: either the returned value or a
panic (from `unwrap`/`expect`) with its message. -/
inductive Outcome (α : Type)
  | ok (a : α)
  | panicked (msg : String)
deriving DecidableEq, Repr

/-- `MemoryManager`: three pools over one device.  The shared `GpuContext`
holds no state relevant to the model. -/
structure MemoryManager where
  main_pool : BufferPool
  staging_upload : BufferPool
  staging_download : BufferPool
deriving DecidableEq, Repr

/-- `MemoryManager::new`. -/
def MemoryManager.new : MemoryManager := ⟨.new, .new, .new⟩

/-- `MemoryManager::allocate_raw`: delegates to the main pool (always `Ok`
in the source). -/
def MemoryManager.allocate_raw (mm : MemoryManager) (size_bytes : Nat) :
    BufferId × MemoryManager :=
  let r := mm.main_pool.get_buffer size_bytes
  (r.1, { mm with main_pool := r.2 })

/-- `MemoryManager::release`: delegates to the main pool. -/
def MemoryManager.release (mm : MemoryManager) (id : BufferId) : MemoryManager :=
  { mm with main_pool := mm.main_pool.release_buffer id }

/-- `MemoryManager::write_to_buffer`: allocate an upload-staging buffer,
map-write `data` into it, copy staging → `dest_id` in the main pool, then
release the staging buffer.  The `unwrap` on `main_pool.get(dest_id)`
panics when `dest_id` is unknown; the pool state at that point (staging
buffer still allocated) is returned alongside the panic. -/
def MemoryManager.write_to_buffer (mm : MemoryManager) (dest_id : BufferId)
    (data : List Nat) : Outcome Unit × MemoryManager :=
  let bytes := data
  let alloc := mm.staging_upload.get_buffer bytes.length
  let sid := alloc.1
  let mm1 := { mm with staging_upload := alloc.2 }
  match mm1.staging_upload.get sid with
  | none => (.panicked "unwrap on None", mm1)
  | some _ =>
    let mm2 := { mm1 with staging_upload := mm1.staging_upload.write_through sid bytes }
    match mm2.main_pool.get dest_id with
    | none => (.panicked "unwrap on None", mm2)
    | some dst =>
      match mm2.staging_upload.get sid with
      | none => (.panicked "unwrap on None", mm2)
      | some src =>
        let copied := copyBytes src.bytes dst.bytes bytes.length
        let mm3 := { mm2 with main_pool := mm2.main_pool.write_through dest_id copied }
        let mm4 := { mm3 with staging_upload := mm3.staging_upload.release_buffer sid }
        (.ok (), mm4)

/-- `MemoryManager::download_raw`: copy main → download-staging, map-read
the whole staging buffer, release it, return the bytes. -/
def MemoryManager.download_raw (mm : MemoryManager) (id : BufferId) :
    Outcome (List Nat) × MemoryManager :=
  match mm.main_pool.get id with
  | none => (.panicked "unwrap on None", mm)
  | some src_buf =>
    let size := src_buf.size
    let alloc := mm.staging_download.get_buffer size
    let sid := alloc.1
    let mm1 := { mm with staging_download := alloc.2 }
    match mm1.staging_download.get sid with
    | none => (.panicked "unwrap on None", mm1)
    | some dst_buf =>
      let copied := copyBytes src_buf.bytes dst_buf.bytes size
      let mm2 := { mm1 with staging_download := mm1.staging_download.write_through sid copied }
      match mm2.staging_download.get sid with
      | none => (.panicked "unwrap on None", mm2)
      | some read_buf =>
        let bytes := read_buf.bytes
        let mm3 := { mm2 with staging_download := mm2.staging_download.release_buffer sid }
        (.ok bytes, mm3)

/-- `MemoryManager::get_ref`: read-only lookup in the main pool. -/
def MemoryManager.get_ref (mm : MemoryManager) (id : BufferId) :
    Option AbstractBuffer :=
  mm.main_pool.get id

/-! ### Operation traces

Traces of public API calls, used to state reachable-state invariants. -/

/-- One `MemoryManager` API call (the argument data of the call). -/
inductive MMOp
  | alloc (size : Nat)
  | rel (id : Nat)
  | write (id : Nat) (data : List Nat)
  | download (id : Nat)
deriving DecidableEq, Repr

/-- Post-state of one `MemoryManager` call (for a panicking call, the state
at the panic point). -/
def MemoryManager.step (mm : MemoryManager) : MMOp → MemoryManager
  | .alloc n => (mm.allocate_raw n).2
  | .rel i => mm.release ⟨i⟩
  | .write i d => (mm.write_to_buffer ⟨i⟩ d).2
  | .download i => (mm.download_raw ⟨i⟩).2

/-- Run a sequence of `MemoryManager` calls. -/
def MemoryManager.run (mm : MemoryManager) (t : List MMOp) : MemoryManager :=
  t.foldl MemoryManager.step mm

/-- The main-pool ids issued by the `alloc` calls of a trace (each
`allocate_raw` returns the main pool's `next_id` at the time of the call). -/
def issuedFrom (mm : MemoryManager) : List MMOp → List Nat
  | [] => []
  | op :: rest =>
    (match op with
     | .alloc _ => [mm.main_pool.next_id]
     | _ => []) ++ issuedFrom (mm.step op) rest

/-- One `BufferPool` API call. -/
inductive PoolOp
  | alloc (size : Nat)
  | inc (id : Nat)
  | dec (id : Nat)
  | rel (id : Nat)
deriving DecidableEq, Repr

/-- Post-state of one `BufferPool` call. -/
def BufferPool.stepOp (p : BufferPool) : PoolOp → BufferPool
  | .alloc n => (p.get_buffer n).2
  | .inc i => (p.inc_ref ⟨i⟩).2
  | .dec i => (p.dec_ref ⟨i⟩).2
  | .rel i => p.release_buffer ⟨i⟩

/-- Run a sequence of `BufferPool` calls. -/
def BufferPool.runOps (p : BufferPool) (t : List PoolOp) : BufferPool :=
  t.foldl BufferPool.stepOp p

/-- Number of `alloc` calls in a pool trace. -/
def countAllocs : List PoolOp → Nat
  | [] => 0
  | .alloc _ :: t => countAllocs t + 1
  | _ :: t => countAllocs t

/-! ### View descriptors and tensors (`core-types`, `tensor/src/lib.rs`) -/

/-- `ViewDescriptor`: offset, rank and `MAX_DIMS`-sized shape/stride
arrays, all in element units (`core-types/src/lib.rs`). -/
structure ViewDescriptor where
  offset : Nat
  ndim : Nat
  shape : List Nat
  strides : List Nat
deriving DecidableEq, Repr

/-- Pad a list to the fixed `MAX_DIMS` array length with zeros. -/
def pad8 (l : List Nat) : List Nat :=
  (l ++ List.replicate MAX_DIMS 0).take MAX_DIMS

/-- `ViewDescriptor::zeroed()` (`bytemuck::Zeroable`). -/
def ViewDescriptor.zeroed : ViewDescriptor :=
  ⟨0, 0, List.replicate MAX_DIMS 0, List.replicate MAX_DIMS 0⟩

/-- The data common to every `Tensor<T>`: buffer id, device id, view
(`tensor/src/lib.rs`; the element type lives in the `TensorAny` tag). -/
structure TensorData where
  buffer_id : BufferId
  device_id : Nat
  view : ViewDescriptor
deriving DecidableEq, Repr

/-- Dynamically-typed tensor (`ops/src/generated_tensor_any.rs`). -/
inductive TensorAny
  | F32 (t : TensorData)
  | I32 (t : TensorData)
  | U32 (t : TensorData)
deriving DecidableEq, Repr

/-- `TensorAny::dtype`. -/
def TensorAny.dtype : TensorAny → DataType
  | .F32 _ => .F32
  | .I32 _ => .I32
  | .U32 _ => .U32

/-- `TensorAny::view`. -/
def TensorAny.view : TensorAny → ViewDescriptor
  | .F32 t => t.view
  | .I32 t => t.view
  | .U32 t => t.view

/-- The wrapped tensor's buffer id. -/
def TensorAny.buffer_id : TensorAny → BufferId
  | .F32 t => t.buffer_id
  | .I32 t => t.buffer_id
  | .U32 t => t.buffer_id

/-- `Tensor::<T>::empty` for element type `dt`: allocate
`shape.product() * size_in_bytes` bytes and build a row-major contiguous
view (shape and strides padded to `MAX_DIMS`). -/
def Tensor.empty (dt : DataType) (mm : MemoryManager) (shape : List Nat)
    (device_id : Nat) : TensorData × MemoryManager :=
  let elem_count := shape.foldl (· * ·) 1
  let bytes := elem_count * dt.size_in_bytes
  let alloc := mm.allocate_raw bytes
  let vd : ViewDescriptor :=
    { offset := 0
      ndim := shape.length
      shape := pad8 shape
      strides := pad8 (compute_strides shape) }
  (⟨alloc.1, device_id, vd⟩, alloc.2)

/-! ### Operation types and registry (`ops/src/types.rs`, `ops/src/lib.rs`) -/

/-- `OpSignature`. -/
structure OpSignature where
  name : String
  num_inputs : Nat
  num_outputs : Nat
  input_dtypes : List (List DataType)
  output_dtypes : List (List DataType)
deriving DecidableEq, Repr

/-- A parameter byte blob (`ParamBuffer`).  `ops/src/builtin/add.rs`
imports this from `crate::types` and sets a `params` field on `GpuTask`,
while `ops/src/types.rs` in this snapshot declares neither — the two files
come from different revisions.  We model the task as `add.rs` builds it;
the execution engine (which never mentions `params`) is unaffected. -/
structure ParamBuffer where
  bytes : List Nat
deriving DecidableEq, Repr

/-- `GpuTask`: a fully resolved dispatch unit. -/
structure GpuTask where
  pipeline_source : String
  entry_point : String
  input_descs : List ViewDescriptor
  output_descs : List ViewDescriptor
  input_types : List DataType
  output_types : List DataType
  input_ids : List BufferId
  output_ids : List BufferId
  params : List ParamBuffer
deriving DecidableEq, Repr

/-- `PreparedOp`: a single GPU kernel or an ordered tree of sub-ops. -/
inductive PreparedOp
  | Gpu (task : GpuTask)
  | Composite (ops : List PreparedOp)

mutual

/-- Decidable equality for the nested `PreparedOp` tree. -/
def PreparedOp.decEq : (a b : PreparedOp) → Decidable (a = b)
  | .Gpu t1, .Gpu t2 =>
    match instDecidableEqGpuTask t1 t2 with
    | isTrue h => isTrue (by rw [h])
    | isFalse h => isFalse (fun hh => h (by cases hh; rfl))
  | .Gpu _, .Composite _ => isFalse (fun h => PreparedOp.noConfusion h)
  | .Composite _, .Gpu _ => isFalse (fun h => PreparedOp.noConfusion h)
  | .Composite l1, .Composite l2 =>
    match PreparedOp.decEqList l1 l2 with
    | isTrue h => isTrue (by rw [h])
    | isFalse h => isFalse (fun hh => h (by cases hh; rfl))

/-- Decidable equality for lists of `PreparedOp`. -/
def PreparedOp.decEqList : (a b : List PreparedOp) → Decidable (a = b)
  | [], [] => isTrue rfl
  | [], _ :: _ => isFalse (fun h => List.noConfusion h)
  | _ :: _, [] => isFalse (fun h => List.noConfusion h)
  | x :: xs, y :: ys =>
    match PreparedOp.decEq x y, PreparedOp.decEqList xs ys with
    | isTrue h1, isTrue h2 => isTrue (by rw [h1, h2])
    | isFalse h1, _ => isFalse (fun h => h1 (by cases h; rfl))
    | isTrue _, isFalse h2 => isFalse (fun h => h2 (by cases h; rfl))

end

instance : DecidableEq PreparedOp := PreparedOp.decEq

/-- `OpError`: validation errors of `check_and_prepare`. -/
inductive OpError
  | UnknownOp (name : String)
  | ArityMismatch (op : String) (expected found : Nat)
  | DtypeMismatch (op : String) (index : Nat) (expected : List DataType)
      (found : DataType)
deriving DecidableEq, Repr

/-- An operation implementation: its signature plus `prepare`
(`ops/src/op.rs`). -/
structure Op where
  sig : OpSignature
  prepare : List TensorAny → List TensorAny → PreparedOp

/-- `OpRegistry`: name → implementation map. -/
def OpRegistry : Type := List (String × Op)

/-- The per-slot dtype scan of `check_and_prepare`: the first slot `i`
whose tensor's dtype is not in `allowed[i]` (the source indexes
`sig.input_dtypes[i]`, in bounds for every well-formed signature). -/
def firstBadSlot (ts : List TensorAny) (allowed : List (List DataType))
    (i : Nat) : Option (Nat × List DataType × DataType) :=
  match ts with
  | [] => none
  | t :: rest =>
    let dt := t.dtype
    if dt ∈ allowed.getD i [] then firstBadSlot rest allowed (i + 1)
    else some (i, allowed.getD i [], dt)

/-- `OpRegistry::check_and_prepare`: lookup, input arity, input dtypes,
output arity, output dtypes, then `prepare` — in exactly the source's
order. -/
def OpRegistry.check_and_prepare (reg : OpRegistry) (name : String)
    (inputs outputs : List TensorAny) : Except OpError PreparedOp :=
  match alookup reg name with
  | none => .error (.UnknownOp name)
  | some op =>
    if inputs.length ≠ op.sig.num_inputs then
      .error (.ArityMismatch name op.sig.num_inputs inputs.length)
    else
      match firstBadSlot inputs op.sig.input_dtypes 0 with
      | some bad => .error (.DtypeMismatch name bad.1 bad.2.1 bad.2.2)
      | none =>
        if outputs.length ≠ op.sig.num_outputs then
          .error (.ArityMismatch name op.sig.num_outputs outputs.length)
        else
          match firstBadSlot outputs op.sig.output_dtypes 0 with
          | some bad => .error (.DtypeMismatch name bad.1 bad.2.1 bad.2.2)
          | none => .ok (op.prepare inputs outputs)

/-! ### The builtin add operation (`ops/src/builtin/add.rs`) -/

/-- Little-endian byte serialization of a `u32` (`bytemuck::bytes_of`). -/
def u32LE (x : Nat) : List Nat :=
  [x % 256, x / 256 % 256, x / 65536 % 256, x / 16777216 % 256]

/-- Bytes of the `ViewU` uniform struct: offset, ndim, 2 padding words,
8 shape words, 8 stride words. -/
def viewU_bytes (v : ViewDescriptor) : List Nat :=
  u32LE v.offset ++ u32LE v.ndim ++ u32LE 0 ++ u32LE 0 ++
    (pad8 v.shape).flatMap u32LE ++ (pad8 v.strides).flatMap u32LE

/-- Bytes of the `MetaU` param struct: the three views, `total_elems`,
3 padding words and 4 tail-padding words. -/
def metaU_bytes (a b c : ViewDescriptor) (total : Nat) : List Nat :=
  viewU_bytes a ++ viewU_bytes b ++ viewU_bytes c ++ u32LE total ++
    (List.replicate 3 0).flatMap u32LE ++ (List.replicate 4 0).flatMap u32LE

/-- The WGSL shader body, opaque per the design's scope (shader text is an
uninterpreted source string; only its identity matters to the cache). -/
def ADD_WGSL : String := "ADD_WGSL"

/-- `AddOp`'s signature: "add", 2 F32 inputs, 1 F32 output. -/
def AddOp.signature : OpSignature :=
  ⟨"add", 2, 1, [[.F32], [.F32]], [[.F32]]⟩

/-- `AddOp::prepare`: emits one `GpuTask` over the two input buffers and
one output buffer, with a single `MetaU` parameter blob.  The source
reaches the typed tensors through `unreachable!()`-guarded matches that
registry validation makes total; the fallback arm models those unreachable
paths. -/
def AddOp.prepareFn (inputs outputs : List TensorAny) : PreparedOp :=
  match inputs, outputs with
  | [.F32 a, .F32 b], [.F32 c] =>
    let total := (c.view.shape.take c.view.ndim).foldl (· * ·) 1
    let meta := metaU_bytes a.view b.view c.view total
    .Gpu
      { pipeline_source := ADD_WGSL
        entry_point := "add_strided"
        input_descs := [a.view, b.view]
        output_descs := [c.view]
        input_types := [.F32, .F32]
        output_types := [.F32]
        input_ids := [a.buffer_id, b.buffer_id]
        output_ids := [c.buffer_id]
        params := [⟨meta⟩] }
  | _, _ => .Composite []

/-- The boxed `AddOp`. -/
def AddOp.op : Op := ⟨AddOp.signature, AddOp.prepareFn⟩

/-- A registry holding the builtin add operation (what
`collect_inventory` registers). -/
def addRegistry : OpRegistry := [("add", AddOp.op)]

/-! ### Kernel cache (`execution/src/kernel_manager.rs`) -/

/-- `KernelKey`: shader source, entry point, dtype signature and
parameter-slot count; equality is structural. -/
structure KernelKey where
  src : String
  ent : String
  t_in : List DataType
  t_out : List DataType
  p_len : Nat
deriving DecidableEq, Repr

/-- A cached pipeline + layout pair.  `Arc` reference identity of the two
device objects is modelled by the numeric object ids they were minted
with: clones of one `Arc` share the id. -/
structure PipelineBundle where
  pipeline : Nat
  layout : Nat
deriving DecidableEq, Repr

/-- `KernelManager`: key → bundle cache, plus the number of device objects
created so far (each `create_storage_layout` / `create_compute_pipeline`
call mints a fresh one). -/
structure KernelManager where
  cache : List (KernelKey × PipelineBundle)
  device_objs : Nat
deriving DecidableEq, Repr

/-- `KernelManager::new`. -/
def KernelManager.new : KernelManager := ⟨[], 0⟩

/-- `KernelManager::get`: build the key, return clones of the cached
bundle on a hit; on a miss create a layout and pipeline via the context
and insert.  The third component records whether this call compiled.
The Rust return type is `Result<_, String>` but the body always returns
`Ok`, so the model returns the bundle directly. -/
def KernelManager.get (km : KernelManager) (src ent : String)
    (t_in t_out : List DataType) (p_len : Nat) :
    PipelineBundle × KernelManager × Bool :=
  let key : KernelKey := ⟨src, ent, t_in, t_out, p_len⟩
  match alookup km.cache key with
  | some b => (b, km, false)
  | none =>
    let layout := km.device_objs
    let pipeline := km.device_objs + 1
    let b : PipelineBundle := ⟨pipeline, layout⟩
    (b, ⟨ainsert km.cache key b, km.device_objs + 2⟩, true)

/-! ### Execution engine (`execution/src/lib.rs`) -/

/-- Outcome of an engine call: `ok`, a returned `Err` value, or a panic
(from `expect`).  The engine's source never constructs an `Err`; the
constructor exists to distinguish a returned error value from a panic. -/
inductive EngineOutcome (α : Type)
  | ok (a : α)
  | err (msg : String)
  | panicked (msg : String)
deriving DecidableEq, Repr

/-- Resolve each id through `MemoryManager::get_ref`; `none` when any id is
unknown (the source `expect`s each lookup in order). -/
def resolveAll (mm : MemoryManager) : List BufferId →
    Option (List AbstractBuffer)
  | [] => some []
  | id :: rest =>
    match mm.get_ref id with
    | none => none
    | some b => (resolveAll mm rest).map (b :: ·)

/-- What `GpuContext::dispatch_compute_1d` receives: the bind group binds
exactly `inputs` then `outputs`, in that order. -/
structure DispatchRecord where
  pipeline : Nat
  layout : Nat
  input_buffers : List AbstractBuffer
  output_buffers : List AbstractBuffer
  total : Nat
  workgroup_size : Nat
deriving DecidableEq, Repr

/-- `ExecutionEngine`: context plus kernel cache. -/
structure ExecutionEngine where
  kernels : KernelManager
deriving DecidableEq, Repr

/-- `ExecutionEngine::run_gpu_task`: resolve input and output ids (each
`expect`ed with a "missing ... buffer" message), fetch the pipeline from
the kernel cache, compute the 1-D dispatch total from the first output
descriptor (`task.output_descs[0]` — an out-of-bounds panic when empty),
and dispatch with workgroup size 64.  The source passes four arguments to
`KernelManager::get`, which takes five (`p_len` is missing — a latent
compile error in the crate); the model supplies `p_len = 0`, matching the
dispatch that binds no parameter buffers. -/
def ExecutionEngine.run_gpu_task (e : ExecutionEngine) (task : GpuTask)
    (mm : MemoryManager) :
    EngineOutcome DispatchRecord × ExecutionEngine × MemoryManager :=
  match resolveAll mm task.input_ids with
  | none => (.panicked "missing input buffer", e, mm)
  | some inputs =>
    match resolveAll mm task.output_ids with
    | none => (.panicked "missing output buffer", e, mm)
    | some outputs =>
      let r := e.kernels.get task.pipeline_source task.entry_point
        task.input_types task.output_types 0
      let bundle := r.1
      let e2 : ExecutionEngine := ⟨r.2.1⟩
      match task.output_descs with
      | [] => (.panicked "index out of bounds", e2, mm)
      | vd :: _ =>
        let total := (vd.shape.take vd.ndim).foldl (· * ·) 1
        (.ok ⟨bundle.pipeline, bundle.layout, inputs, outputs, total, 64⟩,
         e2, mm)

mutual

/-- `ExecutionEngine::run_prepared`: run a `Gpu` task, or each sub-op of a
`Composite` in order, stopping at the first failure. -/
def ExecutionEngine.run_prepared (e : ExecutionEngine) (p : PreparedOp)
    (mm : MemoryManager) :
    EngineOutcome Unit × ExecutionEngine × MemoryManager :=
  match p with
  | .Gpu task =>
    let r := e.run_gpu_task task mm
    (match r.1 with
     | .ok _ => .ok ()
     | .err m => .err m
     | .panicked m => .panicked m,
     r.2.1, r.2.2)
  | .Composite ops => ExecutionEngine.runList e ops mm

/-- The sequential loop over a `Composite`'s sub-ops. -/
def ExecutionEngine.runList (e : ExecutionEngine) (ops : List PreparedOp)
    (mm : MemoryManager) :
    EngineOutcome Unit × ExecutionEngine × MemoryManager :=
  match ops with
  | [] => (.ok (), e, mm)
  | op :: rest =>
    let r := e.run_prepared op mm
    match r.1 with
    | .ok _ => ExecutionEngine.runList r.2.1 rest r.2.2
    | bad => (bad, r.2.1, r.2.2)

end

/-! ## Properties of `compute_strides` (claim C8) -/

theorem compute_strides_length : (s : List Nat) →
    (compute_strides s).length = s.length
  | [] => rfl
  | [_] => rfl
  | _ :: d2 :: rest => by
    simp [compute_strides, compute_strides_length (d2 :: rest)]

theorem compute_strides_last : (s : List Nat) → s ≠ [] →
    (compute_strides s).getD (s.length - 1) 0 = 1
  | [_], _ => rfl
  | _ :: d2 :: rest, _ => by
    have ih := compute_strides_last (d2 :: rest) (by simp)
    simpa [compute_strides] using ih

theorem compute_strides_step : (s : List Nat) → (i : Nat) → i + 1 < s.length →
    (compute_strides s).getD i 0 =
      (compute_strides s).getD (i + 1) 0 * s.getD (i + 1) 0
  | _ :: d2 :: rest, 0, _ => by
    cases hcs : compute_strides (d2 :: rest) with
    | nil =>
      have hlen := compute_strides_length (d2 :: rest)
      rw [hcs] at hlen
      simp at hlen
    | cons x xs =>
      simp [compute_strides, hcs]
  | _ :: d2 :: rest, i + 1, hi => by
    have ih := compute_strides_step (d2 :: rest) i (by simpa using hi)
    simpa [compute_strides] using ih

/-- C8: for every shape `s`, `compute_strides(s)` has the same length as
`s`, satisfies `strides[len-1] = 1` and
`strides[i] = strides[i+1] * s[i+1]` for every `i < len-1`, and returns
the empty list on the empty shape. -/
theorem compute_strides_row_major (s : List Nat) :
    (compute_strides s).length = s.length ∧
    (s = [] → compute_strides s = []) ∧
    (s ≠ [] → (compute_strides s).getD (s.length - 1) 0 = 1) ∧
    ∀ i, i + 1 < s.length →
      (compute_strides s).getD i 0 =
        (compute_strides s).getD (i + 1) 0 * s.getD (i + 1) 0 := by
  refine ⟨compute_strides_length s, ?_, compute_strides_last s,
    compute_strides_step s⟩
  intro h
  subst h
  rfl

/-- Witness for C8 at the spec's example shape `[2,3,4] → [12,4,1]`. -/
theorem compute_strides_row_major_witness :
    (compute_strides [2, 3, 4]).getD 2 0 = 1 ∧
    (compute_strides [2, 3, 4]).getD 0 0 =
      (compute_strides [2, 3, 4]).getD 1 0 * 3 ∧
    compute_strides [2, 3, 4] = [12, 4, 1] := by
  have h := compute_strides_row_major [2, 3, 4]
  refine ⟨?_, ?_, by decide⟩
  · simpa using h.2.2.1 (by decide)
  · simpa using h.2.2.2 0 (by decide)

/-! ## Upload/download round trip (claim C2) -/

/-- C2: allocating a main-pool buffer of `d.length` bytes, writing the
byte-aligned payload `d` into it and downloading it back returns exactly
`d`, for each supported element type (whose byte size divides the payload
length — the `cast_slice` precondition). -/
theorem write_download_roundtrip (dt : DataType) (d : List Nat)
    (halign : d.length % dt.size_in_bytes = 0) :
    (((MemoryManager.new.allocate_raw d.length).2.write_to_buffer
        (MemoryManager.new.allocate_raw d.length).1 d).1 = .ok ()) ∧
    ((((MemoryManager.new.allocate_raw d.length).2.write_to_buffer
        (MemoryManager.new.allocate_raw d.length).1 d).2.download_raw
        (MemoryManager.new.allocate_raw d.length).1).1 = .ok d) := by
  constructor <;>
    simp [MemoryManager.new, BufferPool.new, MemoryManager.allocate_raw,
      MemoryManager.write_to_buffer, MemoryManager.download_raw,
      BufferPool.get_buffer, BufferPool.get, BufferPool.write_through,
      BufferPool.release_buffer, createBuffer, copyBytes, ainsert, aerase,
      alookup, AbstractBuffer.size, U64MOD]

/-- Witness for C2: a concrete 8-byte payload as two `U32` elements. -/
theorem write_download_roundtrip_witness :
    ((8 : Nat) % DataType.U32.size_in_bytes = 0) ∧
    ((((MemoryManager.new.allocate_raw 8).2.write_to_buffer
        (MemoryManager.new.allocate_raw 8).1
        [1, 2, 3, 4, 5, 6, 7, 8]).2.download_raw
        (MemoryManager.new.allocate_raw 8).1).1 =
      .ok [1, 2, 3, 4, 5, 6, 7, 8]) := by
  refine ⟨by decide, ?_⟩
  have h := write_download_roundtrip .U32 [1, 2, 3, 4, 5, 6, 7, 8] (by decide)
  simpa using h.2

/-! ## Registry validation order (claim C1)

`check_and_prepare` checks input arity, then input dtypes, then output
arity, then output dtypes.  Input-arity failures therefore win over every
dtype failure, but an output-arity failure is reported only after all
input dtypes passed. -/

/-- A rank-1 `I32` tensor handle used in concrete validation calls. -/
def sampleI32 : TensorAny := .I32 ⟨⟨0⟩, 0, ⟨0, 1, pad8 [4], pad8 [1]⟩⟩

/-- A rank-1 `F32` tensor handle used in concrete validation calls. -/
def sampleF32 : TensorAny := .F32 ⟨⟨1⟩, 0, ⟨0, 1, pad8 [4], pad8 [1]⟩⟩

/-- C1 counterexample: calling the registered "add" operation with the
correct input count `2` but a wrong element type in slot 0, and a wrong
output count (`0` instead of `1`), reports `DtypeMismatch` — not the
`ArityMismatch` the claim requires whenever `outputs.len()` disagrees with
the declared arity. -/
theorem check_and_prepare_dtype_before_output_arity :
    addRegistry.check_and_prepare "add" [sampleI32, sampleF32] [] =
      .error (.DtypeMismatch "add" 0 [.F32] .I32) ∧
    (0 : Nat) ≠ AddOp.signature.num_outputs := by
  exact ⟨by rfl, by decide⟩

/-- C1 amended: for every registered operation, a wrong input count is
reported as `ArityMismatch` before any dtype check; a wrong output count
is reported as `ArityMismatch` (before any output dtype check) provided
the input count and all input dtypes are correct. -/
theorem check_and_prepare_arity_order (reg : OpRegistry) (name : String)
    (op : Op) (inputs outputs : List TensorAny)
    (hop : alookup reg name = some op) :
    (inputs.length ≠ op.sig.num_inputs →
      reg.check_and_prepare name inputs outputs =
        .error (.ArityMismatch name op.sig.num_inputs inputs.length)) ∧
    (inputs.length = op.sig.num_inputs →
      firstBadSlot inputs op.sig.input_dtypes 0 = none →
      outputs.length ≠ op.sig.num_outputs →
      reg.check_and_prepare name inputs outputs =
        .error (.ArityMismatch name op.sig.num_outputs outputs.length)) := by
  constructor
  · intro hbad
    simp [OpRegistry.check_and_prepare, hop, hbad]
  · intro hlen hslots hbad
    simp [OpRegistry.check_and_prepare, hop, hlen, hslots, hbad]

/-- Witness for the amended C1: wrong input count (1 instead of 2, with a
wrong dtype as well) gives `ArityMismatch`; wrong output count with valid
inputs gives `ArityMismatch`. -/
theorem check_and_prepare_arity_order_witness :
    addRegistry.check_and_prepare "add" [sampleI32] [] =
      .error (.ArityMismatch "add" 2 1) ∧
    addRegistry.check_and_prepare "add" [sampleF32, sampleF32] [] =
      .error (.ArityMismatch "add" 1 0) := by
  have h := check_and_prepare_arity_order addRegistry "add" AddOp.op
    [sampleI32] [] (by rfl)
  have h2 := check_and_prepare_arity_order addRegistry "add" AddOp.op
    [sampleF32, sampleF32] [] (by rfl)
  exact ⟨h.1 (by decide), h2.2 (by decide) (by rfl) (by decide)⟩

/-! ## Pool id assignment (claim C7)

`get_buffer` mints `next_id` and advances it with `wrapping_add(1)` on
`u64`, so the id of an allocation equals the number of allocations the
pool has performed so far, mod `2^64`. -/

theorem stepOp_next_id (p : BufferPool) (op : PoolOp) :
    (p.stepOp op).next_id =
      match op with
      | .alloc _ => (p.next_id + 1) % U64MOD
      | _ => p.next_id := by
  cases op with
  | alloc n => rfl
  | inc i =>
    cases h : alookup p.entries i <;>
      simp [BufferPool.stepOp, BufferPool.inc_ref, h]
  | dec i =>
    cases h : alookup p.entries i with
    | none => simp [BufferPool.stepOp, BufferPool.dec_ref, h]
    | some e =>
      by_cases h0 : e.ref_count = 0 <;>
        by_cases h1 : e.ref_count - 1 = 0 <;>
          simp [BufferPool.stepOp, BufferPool.dec_ref, h, h0, h1]
  | rel i => rfl

theorem runOps_next_id (t : List PoolOp) : ∀ (p : BufferPool),
    p.next_id < U64MOD →
    (p.runOps t).next_id = (p.next_id + countAllocs t) % U64MOD := by
  induction t with
  | nil =>
    intro p hp
    simp [BufferPool.runOps, countAllocs, Nat.mod_eq_of_lt hp]
  | cons op rest ih =>
    intro p hp
    have hM : 0 < U64MOD := by decide
    have hrun : BufferPool.runOps p (op :: rest) =
        BufferPool.runOps (p.stepOp op) rest := rfl
    cases op with
    | alloc n =>
      have hlt : (p.stepOp (.alloc n)).next_id < U64MOD := by
        rw [stepOp_next_id]
        exact Nat.mod_lt _ hM
      rw [hrun, ih _ hlt, stepOp_next_id]
      show ((p.next_id + 1) % U64MOD + countAllocs rest) % U64MOD =
        (p.next_id + (countAllocs rest + 1)) % U64MOD
      rw [Nat.mod_add_mod]
      congr 1
      omega
    | inc i =>
      have he : (p.stepOp (.inc i)).next_id = p.next_id := stepOp_next_id p _
      rw [hrun, ih _ (he ▸ hp), he]
      rfl
    | dec i =>
      have he : (p.stepOp (.dec i)).next_id = p.next_id := stepOp_next_id p _
      rw [hrun, ih _ (he ▸ hp), he]
      rfl
    | rel i =>
      have he : (p.stepOp (.rel i)).next_id = p.next_id := stepOp_next_id p _
      rw [hrun, ih _ (he ▸ hp), he]
      rfl

/-- The id returned by the allocate call performed after running `t` from
a fresh pool is the number of allocations in `t`, mod `2^64`. -/
theorem alloc_id_after (t : List PoolOp) (s : Nat) :
    ((BufferPool.new.runOps t).get_buffer s).1 = ⟨countAllocs t % U64MOD⟩ := by
  have h := runOps_next_id t BufferPool.new (by decide)
  simp [BufferPool.new] at h
  simp [BufferPool.get_buffer, BufferPool.new, h]

theorem countAllocs_replicate (n s : Nat) :
    countAllocs (List.replicate n (.alloc s)) = n := by
  induction n with
  | zero => rfl
  | succ k ih => simp [List.replicate, countAllocs, ih]

/-- C7 counterexample: in the single run that performs `2^64 + 1`
successive allocate calls on one pool, the id counter wraps: allocation
number `2^64` (0-based) receives the same `BufferId` as allocation number
`0`, an id the pool had already issued. -/
theorem pool_id_wraps :
    ((BufferPool.new.runOps
        (List.replicate U64MOD (.alloc 1))).get_buffer 1).1 =
      (BufferPool.new.get_buffer 1).1 ∧
    (0 : Nat) < U64MOD := by
  constructor
  · rw [alloc_id_after, countAllocs_replicate]
    simp [BufferPool.new, BufferPool.get_buffer, Nat.mod_self]
  · decide

/-- C7 amended: an allocate call returns the pool's allocation ordinal mod
`2^64` as its id, so any two allocate calls on one pool whose ordinals
differ and both lie below `2^64` receive distinct ids; ids only repeat
once the `wrapping_add` counter wraps after `2^64` allocations. -/
theorem pool_ids_fresh_before_wrap (t1 t2 : List PoolOp) (s1 s2 : Nat)
    (h1 : countAllocs t1 < U64MOD) (h2 : countAllocs t2 < U64MOD)
    (hne : countAllocs t1 ≠ countAllocs t2) :
    ((BufferPool.new.runOps t1).get_buffer s1).1 ≠
      ((BufferPool.new.runOps t2).get_buffer s2).1 := by
  rw [alloc_id_after, alloc_id_after]
  intro h
  apply hne
  have hid := congrArg BufferId.id h
  simpa [Nat.mod_eq_of_lt h1, Nat.mod_eq_of_lt h2] using hid

/-- Witness for the amended C7: allocations number 0 and number 1 (the
latter after one `alloc` and one `release`) receive distinct ids. -/
theorem pool_ids_fresh_before_wrap_witness :
    (BufferPool.new.get_buffer 16).1 ≠
      ((BufferPool.new.runOps [.alloc 16, .rel 0]).get_buffer 16).1 := by
  have h := pool_ids_fresh_before_wrap [] [.alloc 16, .rel 0] 16 16
    (by decide) (by decide) (by decide)
  simpa [BufferPool.runOps] using h

/-! ## Pool reference-count behaviour (claim C10) -/

theorem stepOp_ref_pos (p : BufferPool) (op : PoolOp)
    (hp : ∀ k e, alookup p.entries k = some e → 1 ≤ e.ref_count) :
    ∀ k e, alookup ((p.stepOp op).entries) k = some e → 1 ≤ e.ref_count := by
  cases op with
  | alloc n =>
    intro k e h
    by_cases hk : p.next_id = k
    · subst hk
      rw [show (p.stepOp (.alloc n)).entries =
            ainsert p.entries p.next_id ⟨createBuffer n, n, 1⟩ from rfl,
          alookup_ainsert_self] at h
      cases h
      exact Nat.le_refl 1
    · rw [show (p.stepOp (.alloc n)).entries =
            ainsert p.entries p.next_id ⟨createBuffer n, n, 1⟩ from rfl,
          alookup_ainsert_of_ne _ _ _ _ hk] at h
      exact hp k e h
  | inc i =>
    intro k e h
    cases hl : alookup p.entries i with
    | none =>
      rw [show (p.stepOp (.inc i)).entries = p.entries by
            simp [BufferPool.stepOp, BufferPool.inc_ref, hl]] at h
      exact hp k e h
    | some entry =>
      by_cases hk : i = k
      · subst hk
        rw [show (p.stepOp (.inc i)).entries =
              ainsert p.entries i
                ({ entry with ref_count := entry.ref_count + 1 }) by
              simp [BufferPool.stepOp, BufferPool.inc_ref, hl],
            alookup_ainsert_self] at h
        cases h
        exact Nat.le_add_left 1 entry.ref_count
      · rw [show (p.stepOp (.inc i)).entries =
              ainsert p.entries i
                ({ entry with ref_count := entry.ref_count + 1 }) by
              simp [BufferPool.stepOp, BufferPool.inc_ref, hl],
            alookup_ainsert_of_ne _ _ _ _ hk] at h
        exact hp k e h
  | dec i =>
    intro k e h
    cases hl : alookup p.entries i with
    | none =>
      rw [show (p.stepOp (.dec i)).entries = p.entries by
            simp [BufferPool.stepOp, BufferPool.dec_ref, hl]] at h
      exact hp k e h
    | some entry =>
      by_cases h0 : entry.ref_count = 0
      · rw [show (p.stepOp (.dec i)).entries = aerase p.entries i by
              simp [BufferPool.stepOp, BufferPool.dec_ref, hl, h0]] at h
        by_cases hk : i = k
        · subst hk
          rw [alookup_aerase_self] at h
          cases h
        · rw [alookup_aerase_of_ne _ _ _ hk] at h
          exact hp k e h
      · by_cases h1 : entry.ref_count - 1 = 0
        · rw [show (p.stepOp (.dec i)).entries = aerase p.entries i by
                simp [BufferPool.stepOp, BufferPool.dec_ref, hl, h0, h1]] at h
          by_cases hk : i = k
          · subst hk
            rw [alookup_aerase_self] at h
            cases h
          · rw [alookup_aerase_of_ne _ _ _ hk] at h
            exact hp k e h
        · by_cases hk : i = k
          · subst hk
            rw [show (p.stepOp (.dec i)).entries =
                  ainsert p.entries i
                    ({ entry with ref_count := entry.ref_count - 1 }) by
                  simp [BufferPool.stepOp, BufferPool.dec_ref, hl, h0, h1],
                alookup_ainsert_self] at h
            cases h
            exact Nat.one_le_iff_ne_zero.mpr h1
          · rw [show (p.stepOp (.dec i)).entries =
                  ainsert p.entries i
                    ({ entry with ref_count := entry.ref_count - 1 }) by
                  simp [BufferPool.stepOp, BufferPool.dec_ref, hl, h0, h1],
                alookup_ainsert_of_ne _ _ _ _ hk] at h
            exact hp k e h
  | rel i =>
    intro k e h
    by_cases hk : i = k
    · subst hk
      rw [show (p.stepOp (.rel i)).entries = aerase p.entries i from rfl,
          alookup_aerase_self] at h
      cases h
    · rw [show (p.stepOp (.rel i)).entries = aerase p.entries i from rfl,
          alookup_aerase_of_ne _ _ _ hk] at h
      exact hp k e h

theorem runOps_ref_pos (t : List PoolOp) : ∀ (p : BufferPool),
    (∀ k e, alookup p.entries k = some e → 1 ≤ e.ref_count) →
    ∀ k e, alookup ((p.runOps t).entries) k = some e → 1 ≤ e.ref_count := by
  induction t with
  | nil => intro p hp; exact hp
  | cons op rest ih =>
    intro p hp
    exact ih _ (stepOp_ref_pos p op hp)

/-- C10: in every pool state reachable from a fresh pool, each mapped
entry has `ref_count ≥ 1`; `inc_ref`/`dec_ref` on an absent id report an
error; `dec_ref` removes the entry exactly when the count drops from 1 to
0, and a `dec_ref` on a live entry with count ≥ 2 leaves the entry present
with the count decremented. -/
theorem pool_ref_count_invariant :
    (∀ (t : List PoolOp) (k : Nat) (e : BufferEntry),
      alookup ((BufferPool.new.runOps t).entries) k = some e →
        1 ≤ e.ref_count) ∧
    (∀ (p : BufferPool) (id : BufferId), alookup p.entries id.id = none →
      (p.inc_ref id).1 = .error "Buffer ID not found" ∧
      (p.dec_ref id).1 = .error "Buffer ID not found") ∧
    (∀ (p : BufferPool) (id : BufferId) (e : BufferEntry),
      alookup p.entries id.id = some e → e.ref_count = 1 →
      (p.dec_ref id).1 = .ok () ∧
      alookup (p.dec_ref id).2.entries id.id = none) ∧
    (∀ (p : BufferPool) (id : BufferId) (e : BufferEntry),
      alookup p.entries id.id = some e → 2 ≤ e.ref_count →
      (p.dec_ref id).1 = .ok () ∧
      alookup (p.dec_ref id).2.entries id.id =
        some ({ e with ref_count := e.ref_count - 1 })) := by
  refine ⟨?_, ?_, ?_, ?_⟩
  · intro t
    exact runOps_ref_pos t BufferPool.new (by intro k e h; cases h)
  · intro p id h
    exact ⟨by simp [BufferPool.inc_ref, h], by simp [BufferPool.dec_ref, h]⟩
  · intro p id e h h1
    refine ⟨by simp [BufferPool.dec_ref, h, h1], ?_⟩
    rw [show (p.dec_ref id).2.entries = aerase p.entries id.id by
          simp [BufferPool.dec_ref, h, h1]]
    exact alookup_aerase_self _ _
  · intro p id e h h2
    have h0 : e.ref_count ≠ 0 := by omega
    have h1 : e.ref_count - 1 ≠ 0 := by omega
    refine ⟨by simp [BufferPool.dec_ref, h, h0, h1], ?_⟩
    rw [show (p.dec_ref id).2.entries =
          ainsert p.entries id.id ({ e with ref_count := e.ref_count - 1 }) by
          simp [BufferPool.dec_ref, h, h0, h1]]
    exact alookup_ainsert_self _ _ _

/-- Witness for C10 at concrete states: the empty reachable state; a pool
holding one entry of count 1 (fresh allocation) and one of count 2 (after
`inc_ref`). -/
theorem pool_ref_count_invariant_witness :
    ((BufferPool.new.get_buffer 4).2.inc_ref ⟨7⟩).1 =
        .error "Buffer ID not found" ∧
    ((BufferPool.new.get_buffer 4).2.dec_ref ⟨0⟩).1 = .ok () ∧
    alookup ((BufferPool.new.get_buffer 4).2.dec_ref ⟨0⟩).2.entries 0 =
        none ∧
    ((((BufferPool.new.get_buffer 4).2.inc_ref ⟨0⟩).2.dec_ref ⟨0⟩).1 =
        .ok ()) ∧
    alookup (((BufferPool.new.get_buffer 4).2.inc_ref
        ⟨0⟩).2.dec_ref ⟨0⟩).2.entries 0 =
      some ⟨createBuffer 4, 4, 1⟩ := by
  have h := pool_ref_count_invariant
  refine ⟨(h.2.1 (BufferPool.new.get_buffer 4).2 ⟨7⟩ (by decide)).1,
    ?_, ?_, ?_, ?_⟩
  · exact (h.2.2.1 (BufferPool.new.get_buffer 4).2 ⟨0⟩
      ⟨createBuffer 4, 4, 1⟩ (by decide) (by decide)).1
  · exact (h.2.2.1 (BufferPool.new.get_buffer 4).2 ⟨0⟩
      ⟨createBuffer 4, 4, 1⟩ (by decide) (by decide)).2
  · exact (h.2.2.2 ((BufferPool.new.get_buffer 4).2.inc_ref ⟨0⟩).2 ⟨0⟩
      ⟨createBuffer 4, 4, 2⟩ (by decide) (by decide)).1
  · have h4 := (h.2.2.2 ((BufferPool.new.get_buffer 4).2.inc_ref ⟨0⟩).2 ⟨0⟩
      ⟨createBuffer 4, 4, 2⟩ (by decide) (by decide)).2
    simpa using h4

/-! ## Main-pool lifecycle through the MemoryManager (claim C9) -/

theorem get_write_through_isSome (p : BufferPool) (id : BufferId)
    (bytes : List Nat) (j : BufferId) :
    ((p.write_through id bytes).get j).isSome = (p.get j).isSome := by
  unfold BufferPool.write_through
  cases hl : alookup p.entries id.id with
  | none => rfl
  | some e =>
    by_cases hj : id.id = j.id
    · simp only [BufferPool.get]
      rw [← hj, alookup_ainsert_self, hl]
      rfl
    · simp [BufferPool.get, alookup_ainsert_of_ne _ _ _ _ hj]

theorem get_buffer_preserves (p : BufferPool) (n : Nat) (j : BufferId)
    (h : (p.get j).isSome = true) :
    (((p.get_buffer n).2).get j).isSome = true := by
  by_cases hj : p.next_id = j.id
  · simp [BufferPool.get_buffer, BufferPool.get, ← hj, alookup_ainsert_self]
  · simpa [BufferPool.get_buffer, BufferPool.get,
      alookup_ainsert_of_ne _ _ _ _ hj] using h

theorem get_buffer_isSome_cases (p : BufferPool) (n : Nat) (j : BufferId)
    (h : (((p.get_buffer n).2).get j).isSome = true) :
    j.id = p.next_id ∨ (p.get j).isSome = true := by
  by_cases hj : p.next_id = j.id
  · exact .inl hj.symm
  · right
    simpa [BufferPool.get_buffer, BufferPool.get,
      alookup_ainsert_of_ne _ _ _ _ hj] using h

theorem release_get_self (p : BufferPool) (id : BufferId) :
    (p.release_buffer id).get id = none := by
  simp [BufferPool.release_buffer, BufferPool.get, alookup_aerase_self]

theorem release_get_ne (p : BufferPool) (id j : BufferId)
    (h : id.id ≠ j.id) : (p.release_buffer id).get j = p.get j := by
  simp [BufferPool.release_buffer, BufferPool.get,
    alookup_aerase_of_ne _ _ _ h]

/-- `write_to_buffer` never adds or removes main-pool entries: it only
overwrites the destination's contents in place (and on its panic paths it
leaves the main pool untouched). -/
theorem write_main_isSome (mm : MemoryManager) (dest : BufferId)
    (d : List Nat) (j : BufferId) :
    (((mm.write_to_buffer dest d).2).main_pool.get j).isSome =
      (mm.main_pool.get j).isSome := by
  unfold MemoryManager.write_to_buffer
  dsimp only
  split
  · rfl
  · split
    · rfl
    · split
      · rfl
      · exact get_write_through_isSome _ _ _ _

/-- `download_raw` leaves the main pool untouched on every path. -/
theorem download_main_eq (mm : MemoryManager) (id : BufferId) :
    ((mm.download_raw id).2).main_pool = mm.main_pool := by
  unfold MemoryManager.download_raw
  dsimp only
  split
  · rfl
  · split
    · rfl
    · split <;> rfl

/-- A live main-pool id stays live across any call that is not a release
of that very id. -/
theorem step_preserves_live (mm : MemoryManager) (op : MMOp)
    (id : BufferId) (hop : op ≠ .rel id.id)
    (h : (mm.get_ref id).isSome = true) :
    ((mm.step op).get_ref id).isSome = true := by
  cases op with
  | alloc n =>
    exact get_buffer_preserves mm.main_pool n id h
  | rel i =>
    have hne : i ≠ id.id := fun he => hop (by rw [he])
    rw [show (mm.step (.rel i)).get_ref id =
          (mm.main_pool.release_buffer ⟨i⟩).get id from rfl,
        release_get_ne _ _ _ hne]
    exact h
  | write i d =>
    rw [show (mm.step (.write i d)).get_ref id =
          ((mm.write_to_buffer ⟨i⟩ d).2).main_pool.get id from rfl]
    rw [write_main_isSome]
    exact h
  | download i =>
    rw [show (mm.step (.download i)).get_ref id =
          ((mm.download_raw ⟨i⟩).2).main_pool.get id from rfl]
    rw [download_main_eq]
    exact h

theorem run_preserves_live (r : List MMOp) : ∀ (mm : MemoryManager)
    (id : BufferId), (MMOp.rel id.id) ∉ r →
    (mm.get_ref id).isSome = true →
    ((mm.run r).get_ref id).isSome = true := by
  induction r with
  | nil => intro mm id _ h; exact h
  | cons op rest ih =>
    intro mm id hr h
    have hop : op ≠ .rel id.id := fun he => hr (he ▸ List.mem_cons_self op rest)
    have hrest : (MMOp.rel id.id) ∉ rest := fun hm => hr (List.mem_cons_of_mem _ hm)
    exact ih (mm.step op) id hrest (step_preserves_live mm op id hop h)

/-- Every live main-pool id of a state reached from `mm` was either issued
by an `alloc` of the trace or already live in `mm`. -/
theorem run_live_issued (t : List MMOp) : ∀ (mm : MemoryManager) (j : Nat),
    ((mm.run t).get_ref ⟨j⟩).isSome = true →
    j ∈ issuedFrom mm t ∨ (mm.get_ref ⟨j⟩).isSome = true := by
  induction t with
  | nil => intro mm j h; exact .inr h
  | cons op rest ih =>
    intro mm j h
    rcases ih (mm.step op) j h with hmem | hlive
    · left
      simp [issuedFrom]
      right
      exact hmem
    · cases op with
      | alloc n =>
        rcases get_buffer_isSome_cases mm.main_pool n ⟨j⟩ hlive with he | hs
        · left
          simp [issuedFrom]
          exact .inl he
        · exact .inr hs
      | rel i =>
        by_cases hij : i = j
        · subst hij
          rw [show (mm.step (.rel i)).get_ref ⟨i⟩ =
                (mm.main_pool.release_buffer ⟨i⟩).get ⟨i⟩ from rfl,
              release_get_self] at hlive
          cases hlive
        · right
          rw [show (mm.step (.rel i)).get_ref ⟨j⟩ =
                (mm.main_pool.release_buffer ⟨i⟩).get ⟨j⟩ from rfl,
              release_get_ne _ _ _ hij] at hlive
          exact hlive
      | write i d =>
        right
        rw [show (mm.step (.write i d)).get_ref ⟨j⟩ =
              ((mm.write_to_buffer ⟨i⟩ d).2).main_pool.get ⟨j⟩ from rfl,
            write_main_isSome] at hlive
        exact hlive
      | download i =>
        right
        rw [show (mm.step (.download i)).get_ref ⟨j⟩ =
              ((mm.download_raw ⟨i⟩).2).main_pool.get ⟨j⟩ from rfl,
            download_main_eq] at hlive
        exact hlive

/-- C9: an id returned by `allocate_raw` resolves through `get_ref` at
every point until the first `release` of that id; immediately after a
`release(id)` the lookup is `none`; and an id never issued by the main
pool resolves to `none`. -/
theorem get_ref_lifecycle :
    (∀ (p r : List MMOp) (sz : Nat),
      (MMOp.rel ((MemoryManager.new.run p).allocate_raw sz).1.id) ∉ r →
      (((((MemoryManager.new.run p).allocate_raw sz).2).run r).get_ref
          ((MemoryManager.new.run p).allocate_raw sz).1).isSome = true) ∧
    (∀ (mm : MemoryManager) (id : BufferId),
      (mm.release id).get_ref id = none) ∧
    (∀ (t : List MMOp) (j : Nat), j ∉ issuedFrom MemoryManager.new t →
      (MemoryManager.new.run t).get_ref ⟨j⟩ = none) := by
  refine ⟨?_, ?_, ?_⟩
  · intro p r sz hr
    set mm1 := (MemoryManager.new.run p) with hmm1
    apply run_preserves_live r _ _ hr
    simp [MemoryManager.allocate_raw, MemoryManager.get_ref,
      BufferPool.get_buffer, BufferPool.get, alookup_ainsert_self]
  · intro mm id
    exact release_get_self mm.main_pool id
  · intro t j hj
    cases hs : (MemoryManager.new.run t).get_ref ⟨j⟩ with
    | none => rfl
    | some b =>
      rcases run_live_issued t MemoryManager.new j (by simp [hs]) with
        hmem | hlive
      · exact absurd hmem hj
      · rw [show MemoryManager.new.get_ref ⟨j⟩ = none from rfl] at hlive
        cases hlive

/-- Witness for C9: allocate 4 bytes after a one-alloc prefix, run a
release of a different id, observe liveness; observe `none` immediately
after release and for the never-issued id 7. -/
theorem get_ref_lifecycle_witness :
    ((((MemoryManager.new.run [.alloc 2]).allocate_raw 4).2.run
        [.rel 0]).get_ref
      ((MemoryManager.new.run [.alloc 2]).allocate_raw 4).1).isSome = true ∧
    ((MemoryManager.new.run [.alloc 2]).release ⟨0⟩).get_ref ⟨0⟩ = none ∧
    (MemoryManager.new.run [.alloc 2, .rel 0]).get_ref ⟨7⟩ = none := by
  refine ⟨get_ref_lifecycle.1 [.alloc 2] [.rel 0] 4 (by decide),
    get_ref_lifecycle.2.1 (MemoryManager.new.run [.alloc 2]) ⟨0⟩,
    get_ref_lifecycle.2.2 [.alloc 2, .rel 0] 7 (by decide)⟩

/-! ## Kernel cache identity (claim C6) -/

/-- Well-formedness of a kernel-cache state: cached device-object ids were
minted below the creation counter, and distinct keys hold distinct
pipelines.  This holds in every state the cache can reach, since every
miss mints fresh ids. -/
def KernelManager.WF (km : KernelManager) : Prop :=
  (∀ k b, alookup km.cache k = some b →
    b.pipeline < km.device_objs ∧ b.layout < km.device_objs) ∧
  (∀ k1 b1 k2 b2, alookup km.cache k1 = some b1 →
    alookup km.cache k2 = some b2 → k1 ≠ k2 → b1.pipeline ≠ b2.pipeline)

/-- C6: from any well-formed cache state, a second `get` with the complete
identical key (shader source, entry point, input/output dtype lists,
parameter-slot count) returns the same pipeline/layout pair without
compiling and without changing the cache, while a `get` whose dtype
signature differs returns a distinct pipeline; when the key was not yet
cached the first call is the one that compiles. -/
theorem kernel_cache_identity (km : KernelManager) (hwf : km.WF)
    (src ent : String) (t_in t_out t_in2 t_out2 : List DataType)
    (p_len : Nat) (hdiff : t_in2 ≠ t_in ∨ t_out2 ≠ t_out) :
    ((km.get src ent t_in t_out p_len).2.1.get src ent t_in t_out p_len).1 =
      (km.get src ent t_in t_out p_len).1 ∧
    ((km.get src ent t_in t_out p_len).2.1.get src ent t_in t_out
        p_len).2.2 = false ∧
    ((km.get src ent t_in t_out p_len).2.1.get src ent t_in t_out
        p_len).2.1 = (km.get src ent t_in t_out p_len).2.1 ∧
    (((km.get src ent t_in t_out p_len).2.1.get src ent t_in t_out
        p_len).2.1.get src ent t_in2 t_out2 p_len).1.pipeline ≠
      (km.get src ent t_in t_out p_len).1.pipeline ∧
    (alookup km.cache ⟨src, ent, t_in, t_out, p_len⟩ = none →
      (km.get src ent t_in t_out p_len).2.2 = true) := by
  have hkk : (⟨src, ent, t_in, t_out, p_len⟩ : KernelKey) ≠
      ⟨src, ent, t_in2, t_out2, p_len⟩ := by
    intro h
    cases h
    rcases hdiff with h | h <;> exact h rfl
  cases h : alookup km.cache ⟨src, ent, t_in, t_out, p_len⟩ with
  | some b =>
    refine ⟨?_, ?_, ?_, ?_, ?_⟩
    · simp [KernelManager.get, h]
    · simp [KernelManager.get, h]
    · simp [KernelManager.get, h]
    · cases h2 : alookup km.cache ⟨src, ent, t_in2, t_out2, p_len⟩ with
      | some b2 =>
        have hne := hwf.2 _ _ _ _ h2 h (Ne.symm hkk)
        simpa [KernelManager.get, h, h2] using hne
      | none =>
        have hb := (hwf.1 _ _ h).1
        simp [KernelManager.get, h, h2]
        omega
    · intro hnone
      simp [h] at hnone
  | none =>
    have hhit := alookup_ainsert_self km.cache
      (⟨src, ent, t_in, t_out, p_len⟩ : KernelKey)
      (⟨km.device_objs + 1, km.device_objs⟩ : PipelineBundle)
    have hmiss2 := alookup_ainsert_of_ne km.cache
      (⟨src, ent, t_in, t_out, p_len⟩ : KernelKey)
      (⟨src, ent, t_in2, t_out2, p_len⟩ : KernelKey)
      (⟨km.device_objs + 1, km.device_objs⟩ : PipelineBundle) hkk
    refine ⟨?_, ?_, ?_, ?_, fun _ => ?_⟩
    · simp [KernelManager.get, h, hhit]
    · simp [KernelManager.get, h, hhit]
    · simp [KernelManager.get, h, hhit]
    · cases h2 : alookup km.cache ⟨src, ent, t_in2, t_out2, p_len⟩ with
      | some b2 =>
        have hb2 := (hwf.1 _ _ h2).1
        simp [KernelManager.get, h, hhit, hmiss2, h2]
        omega
      | none =>
        simp [KernelManager.get, h, hhit, hmiss2, h2]
    · simp [KernelManager.get, h]

/-- Witness for C6 from the empty cache with an `[F32],[F32]` key and a
differing `[I32]` input-dtype signature. -/
theorem kernel_cache_identity_witness :
    ((KernelManager.new.get "s" "e" [.F32] [.F32] 0).2.1.get "s" "e"
        [.F32] [.F32] 0).1 =
      (KernelManager.new.get "s" "e" [.F32] [.F32] 0).1 ∧
    ((KernelManager.new.get "s" "e" [.F32] [.F32] 0).2.1.get "s" "e"
        [.F32] [.F32] 0).2.2 = false ∧
    (((KernelManager.new.get "s" "e" [.F32] [.F32] 0).2.1.get "s" "e"
        [.F32] [.F32] 0).2.1.get "s" "e" [.I32] [.F32] 0).1.pipeline ≠
      (KernelManager.new.get "s" "e" [.F32] [.F32] 0).1.pipeline ∧
    (KernelManager.new.get "s" "e" [.F32] [.F32] 0).2.2 = true := by
  have hwf : KernelManager.WF KernelManager.new := by
    constructor
    · intro k b hb
      cases hb
    · intro k1 b1 k2 b2 hb1
      cases hb1
  have h := kernel_cache_identity KernelManager.new hwf "s" "e"
    [.F32] [.F32] [.I32] [.F32] 0 (.inl (by decide))
  exact ⟨h.1, h.2.1, h.2.2.2.1, h.2.2.2.2 (by rfl)⟩

/-! ## Missing buffers at dispatch (claim C4) -/

theorem resolveAll_none_iff (mm : MemoryManager) (ids : List BufferId) :
    resolveAll mm ids = none ↔ ∃ id ∈ ids, mm.get_ref id = none := by
  induction ids with
  | nil => simp [resolveAll]
  | cons id rest ih =>
    cases h : mm.get_ref id with
    | none =>
      have hr : resolveAll mm (id :: rest) = none := by simp [resolveAll, h]
      rw [hr]
      exact ⟨fun _ => ⟨id, List.mem_cons_self id rest, h⟩, fun _ => rfl⟩
    | some b =>
      have hr : resolveAll mm (id :: rest) =
          (resolveAll mm rest).map (b :: ·) := by simp [resolveAll, h]
      rw [hr]
      constructor
      · intro hmap
        have hnone : resolveAll mm rest = none := by
          cases hq : resolveAll mm rest with
          | none => rfl
          | some l => rw [hq] at hmap; cases hmap
        rcases ih.mp hnone with ⟨j, hj, hn⟩
        exact ⟨j, List.mem_cons_of_mem _ hj, hn⟩
      · rintro ⟨j, hj, hn⟩
        rcases List.mem_cons.mp hj with he | hm
        · subst he
          rw [h] at hn
          cases hn
        · rw [ih.mpr ⟨j, hm, hn⟩]
          rfl

/-- A fixed engine state over an empty kernel cache, used in concrete
executions. -/
def engine0 : ExecutionEngine := ⟨KernelManager.new⟩

/-- A task naming input buffer id 42, which no pool ever issued. -/
def orphanTask : GpuTask :=
  { pipeline_source := "s", entry_point := "e", input_descs := [],
    output_descs := [ViewDescriptor.zeroed], input_types := [],
    output_types := [], input_ids := [⟨42⟩], output_ids := [], params := [] }

/-- C4 counterexample: running a `Gpu` task whose input buffer id is
unknown to the Memory Manager makes `run_prepared` panic (the `expect` on
`get_ref`) with the "missing input buffer" message — it does not return an
error value to the caller (`EngineOutcome.err`, the `Result::Err` channel,
is never produced). -/
theorem run_prepared_missing_buffer_cex :
    (engine0.run_prepared (.Gpu orphanTask) MemoryManager.new).1 =
      .panicked "missing input buffer" := by
  rfl

/-- C4 amended: when some input or output buffer id of a `Gpu` task is
unknown to the Memory Manager, `run_prepared` does not assume the id is
live: it fails, by panicking with a "missing input buffer" / "missing
output buffer" message rather than by returning an error value, and it
leaves the Memory Manager untouched. -/
theorem run_prepared_missing_buffer_panics (e : ExecutionEngine)
    (task : GpuTask) (mm : MemoryManager)
    (h : (∃ id ∈ task.input_ids, mm.get_ref id = none) ∨
         (∃ id ∈ task.output_ids, mm.get_ref id = none)) :
    ((e.run_prepared (.Gpu task) mm).1 = .panicked "missing input buffer" ∨
     (e.run_prepared (.Gpu task) mm).1 = .panicked "missing output buffer") ∧
    (e.run_prepared (.Gpu task) mm).2.2 = mm ∧
    ∀ m, (e.run_prepared (.Gpu task) mm).1 ≠ .err m := by
  cases hin : resolveAll mm task.input_ids with
  | none =>
    have hrun : e.run_gpu_task task mm =
        (.panicked "missing input buffer", e, mm) := by
      simp [ExecutionEngine.run_gpu_task, hin]
    refine ⟨.inl ?_, ?_, ?_⟩ <;>
      simp [ExecutionEngine.run_prepared, hrun]
  | some bufs =>
    have hout : resolveAll mm task.output_ids = none := by
      rcases h with hm | hm
      · exact absurd ((resolveAll_none_iff mm task.input_ids).mpr hm)
          (by simp [hin])
      · exact (resolveAll_none_iff mm task.output_ids).mpr hm
    have hrun : e.run_gpu_task task mm =
        (.panicked "missing output buffer", e, mm) := by
      simp [ExecutionEngine.run_gpu_task, hin, hout]
    refine ⟨.inr ?_, ?_, ?_⟩ <;>
      simp [ExecutionEngine.run_prepared, hrun]

/-- Witness for the amended C4 at the orphan task. -/
theorem run_prepared_missing_buffer_panics_witness :
    ((engine0.run_prepared (.Gpu orphanTask) MemoryManager.new).1 =
        .panicked "missing input buffer" ∨
     (engine0.run_prepared (.Gpu orphanTask) MemoryManager.new).1 =
        .panicked "missing output buffer") ∧
    (engine0.run_prepared (.Gpu orphanTask) MemoryManager.new).2.2 =
      MemoryManager.new ∧
    ∀ m, (engine0.run_prepared (.Gpu orphanTask) MemoryManager.new).1 ≠
        .err m :=
  run_prepared_missing_buffer_panics engine0 orphanTask MemoryManager.new
    (.inl ⟨⟨42⟩, by decide, by rfl⟩)

/-! ## Staging-buffer lifetime (claim C5) -/

/-- C5 counterexample: `write_to_buffer` on a destination id unknown to
the main pool panics at the `unwrap` — after the staging-upload buffer was
already allocated and written — so the call ends with the upload staging
pool non-empty although no transfer is in progress: the staging buffer
created during the call was not released on this failure path. -/
theorem staging_leak_on_missing_dest :
    (MemoryManager.new.write_to_buffer ⟨5⟩ [1, 2, 3]).1 =
      .panicked "unwrap on None" ∧
    (MemoryManager.new.write_to_buffer
        ⟨5⟩ [1, 2, 3]).2.staging_upload.entries =
      [(0, ⟨⟨[1, 2, 3]⟩, 3, 1⟩)] := by
  exact ⟨by rfl, by rfl⟩

/-- C5 amended: on every path on which the call returns, the staging
buffer created by `write_to_buffer`/`download_raw` is released before the
return, leaving the staging pools empty; but when `write_to_buffer` panics
on a destination id missing from the main pool, the staging-upload buffer
it allocated is not released.  (`download_raw` panics on a missing source
before allocating any staging, so its staging pool stays empty even
then.) -/
theorem staging_released_before_return (mm : MemoryManager)
    (dest : BufferId) (d : List Nat) (buf : AbstractBuffer)
    (hup : mm.staging_upload.entries = [])
    (hdown : mm.staging_download.entries = []) :
    (mm.main_pool.get dest = some buf →
      (mm.write_to_buffer dest d).1 = .ok () ∧
      (mm.write_to_buffer dest d).2.staging_upload.entries = [] ∧
      (mm.write_to_buffer dest d).2.staging_download.entries = []) ∧
    (mm.main_pool.get dest = some buf →
      (mm.download_raw dest).1 = .ok buf.bytes ∧
      (mm.download_raw dest).2.staging_download.entries = [] ∧
      (mm.download_raw dest).2.staging_upload.entries = []) ∧
    (mm.main_pool.get dest = none →
      (mm.write_to_buffer dest d).1 = .panicked "unwrap on None" ∧
      (mm.write_to_buffer dest d).2.staging_upload.entries ≠ []) ∧
    (mm.main_pool.get dest = none →
      (mm.download_raw dest).1 = .panicked "unwrap on None" ∧
      (mm.download_raw dest).2.staging_download.entries = []) := by
  refine ⟨?_, ?_, ?_, ?_⟩
  · intro hdest
    cases halo : alookup mm.main_pool.entries dest.id with
    | none =>
      rw [show mm.main_pool.get dest = none by
        simp [BufferPool.get, halo]] at hdest
      cases hdest
    | some entry =>
      refine ⟨?_, ?_, ?_⟩ <;>
        simp [MemoryManager.write_to_buffer, BufferPool.get_buffer,
          BufferPool.get, BufferPool.write_through, BufferPool.release_buffer,
          ainsert, aerase, alookup, hup, hdown, halo]
  · intro hdest
    cases halo : alookup mm.main_pool.entries dest.id with
    | none =>
      rw [show mm.main_pool.get dest = none by
        simp [BufferPool.get, halo]] at hdest
      cases hdest
    | some entry =>
      have hbuf : entry.buffer = buf := by
        have hd := hdest
        rw [show mm.main_pool.get dest = some entry.buffer by
          simp [BufferPool.get, halo]] at hd
        exact Option.some.inj hd
      subst hbuf
      refine ⟨?_, ?_, ?_⟩ <;>
        simp [MemoryManager.download_raw, BufferPool.get_buffer,
          BufferPool.get, BufferPool.write_through, BufferPool.release_buffer,
          createBuffer, copyBytes, AbstractBuffer.size,
          ainsert, aerase, alookup, hup, hdown, halo]
  · intro hdest
    cases halo : alookup mm.main_pool.entries dest.id with
    | some entry =>
      rw [show mm.main_pool.get dest = some entry.buffer by
        simp [BufferPool.get, halo]] at hdest
      cases hdest
    | none =>
      refine ⟨?_, ?_⟩ <;>
        simp [MemoryManager.write_to_buffer, BufferPool.get_buffer,
          BufferPool.get, BufferPool.write_through, BufferPool.release_buffer,
          ainsert, aerase, alookup, hup, halo]
  · intro hdest
    cases halo : alookup mm.main_pool.entries dest.id with
    | some entry =>
      rw [show mm.main_pool.get dest = some entry.buffer by
        simp [BufferPool.get, halo]] at hdest
      cases hdest
    | none =>
      refine ⟨?_, ?_⟩ <;>
        simp [MemoryManager.download_raw, hdown, halo, BufferPool.get]

/-- Witness for the amended C5 after one 3-byte allocation. -/
theorem staging_released_before_return_witness :
    (((MemoryManager.new.allocate_raw 3).2.write_to_buffer ⟨0⟩
        [7, 7, 7]).1 = .ok () ∧
      ((MemoryManager.new.allocate_raw 3).2.write_to_buffer ⟨0⟩
        [7, 7, 7]).2.staging_upload.entries = [] ∧
      ((MemoryManager.new.allocate_raw 3).2.write_to_buffer ⟨0⟩
        [7, 7, 7]).2.staging_download.entries = []) ∧
    (((MemoryManager.new.allocate_raw 3).2.download_raw ⟨0⟩).1 =
        .ok (createBuffer 3).bytes ∧
      ((MemoryManager.new.allocate_raw 3).2.download_raw
        ⟨0⟩).2.staging_download.entries = [] ∧
      ((MemoryManager.new.allocate_raw 3).2.download_raw
        ⟨0⟩).2.staging_upload.entries = []) := by
  have h := staging_released_before_return (MemoryManager.new.allocate_raw 3).2
    ⟨0⟩ [7, 7, 7] (createBuffer 3) (by rfl) (by rfl)
  exact ⟨h.1 (by rfl), h.2.1 (by rfl)⟩

/-! ## Parameter buffers at dispatch (claim C3) -/

/-- The spec's end-to-end scenario tensors: three F32 tensors of shape
`[4]` allocated in sequence. -/
def addA : TensorData × MemoryManager := Tensor.empty .F32 MemoryManager.new [4] 0

def addB : TensorData × MemoryManager := Tensor.empty .F32 addA.2 [4] 0

def addC : TensorData × MemoryManager := Tensor.empty .F32 addB.2 [4] 0

/-- The validated and prepared "add" call of the end-to-end scenario. -/
def addPrepared : Except OpError PreparedOp :=
  addRegistry.check_and_prepare "add" [.F32 addA.1, .F32 addB.1] [.F32 addC.1]

/-- C3, evaluated at the failing input: the prepared "add" task carries
one parameter blob (`AddOp::prepare` packs the `MetaU` metadata), yet the
engine's `run_gpu_task` returns the Memory Manager exactly as it received
it — in every run, over any task and state: it never allocates a buffer
for any parameter blob, never writes a blob, and never binds or releases a
parameter buffer (its dispatch binds inputs and outputs only). -/
theorem engine_ignores_param_buffers :
    (∃ t : GpuTask, addPrepared = .ok (.Gpu t) ∧ t.params.length = 1 ∧
      (engine0.run_prepared (.Gpu t) addC.2).1 = .ok () ∧
      (engine0.run_prepared (.Gpu t) addC.2).2.2 = addC.2) ∧
    ∀ (e : ExecutionEngine) (task : GpuTask) (mm : MemoryManager),
      (e.run_gpu_task task mm).2.2 = mm := by
  constructor
  · exact ⟨_, rfl, by rfl, by rfl, by rfl⟩
  · intro e task mm
    unfold ExecutionEngine.run_gpu_task
    dsimp only
    split
    · rfl
    · split
      · rfl
      · split <;> rfl

end VKNP
